import Mathlib

/-!
Verification of the core numeric components of the personal-website
repository (file script.js): the particle-field background simulation
(class TensorNetworkAnimation) and the interactive sphere icon
(class BlochSphereIcon).  Every definition below is a shallow embedding
of the corresponding JavaScript method, with machine floats modelled as
exact real numbers.
-/

noncomputable section

namespace TensorNetworkAnimation

/-- Configuration constant physics.screeningLength (script.js line 34). -/
def screeningLength : ℝ := 100

/-- Configuration constant physics.coulombStrength (script.js line 35). -/
def coulombStrength : ℝ := 200

/-- Configuration constant physics.damping (script.js line 36). -/
def damping : ℝ := 1.0

/-- Configuration constant physics.maxVelocity (script.js line 37). -/
def maxVelocity : ℝ := 10.0

/-- Configuration constant physics.softening (script.js line 38). -/
def softening : ℝ := 20

/-- Configuration constant physics.brownianStrength (script.js line 39). -/
def brownianStrength : ℝ := 0.1

/-- Configuration constant connectionDistance (script.js line 26). -/
def connectionDistance : ℝ := 150

/-- The interaction radius of the mouse state (script.js line 20). -/
def mouseRadius : ℝ := 150

/-- A particle of the background animation (script.js lines 71 to 76).
Only the numeric fields used by the simulation are kept; the visual
fields isCyan, baseRadius and pulseOffset do not enter the dynamics. -/
structure Particle where
  x : ℝ
  y : ℝ
  vx : ℝ
  vy : ℝ
  ax : ℝ
  ay : ℝ
  radius : ℝ
  charge : ℝ

/-- Euclidean distance between two particles, as computed at
script.js lines 144 to 147 (dx, dy taken from p toward q). -/
def pairDist (p q : Particle) : ℝ :=
  Real.sqrt ((q.x - p.x) * (q.x - p.x) + (q.y - p.y) * (q.y - p.y))

/-- The cutoff test of script.js line 150: the pair is skipped when the
distance exceeds twice the screening length. -/
def pairSkip (p q : Particle) : Prop :=
  pairDist p q > screeningLength * 2

/-- Decidability of the cutoff test, inherited from the linear order on
the reals. -/
instance (p q : Particle) : Decidable (pairSkip p q) :=
  inferInstanceAs (Decidable (_ > _))

/-- The force components (fx, fy) of script.js lines 153 to 161:
softened distance, Yukawa screening factor, force magnitude, and the
projection onto the unit displacement vector from p to q. -/
def pairForce (p q : Particle) : ℝ × ℝ :=
  let dx := q.x - p.x
  let dy := q.y - p.y
  let dist := pairDist p q
  let r := dist + softening
  let screening := Real.exp (-dist / screeningLength)
  let forceMag := coulombStrength * p.charge * q.charge / (r * r) * screening
  ((dx / dist) * forceMag, (dy / dist) * forceMag)

/-- One iteration of the pair loop of calculateForces
(script.js lines 139 to 169): either the pair is skipped by the cutoff,
or p receives (-fx, -fy) and q receives (+fx, +fy) on its acceleration
accumulators. -/
def pairUpdate (p q : Particle) : Particle × Particle :=
  if pairSkip p q then (p, q)
  else
    let f := pairForce p q
    ({ p with ax := p.ax - f.1, ay := p.ay - f.2 },
     { q with ax := q.ax + f.1, ay := q.ay + f.2 })

/-- The mouse-attraction contribution added to the acceleration of a
particle at (px, py) in updateParticle (script.js lines 204 to 215).
The nullable mouse position is an Option; the contribution is the pair
of deltas applied to (ax, ay). -/
def mouseAccel (mouse : Option (ℝ × ℝ)) (px py : ℝ) : ℝ × ℝ :=
  match mouse with
  | none => (0, 0)
  | some m =>
    let dx := px - m.1
    let dy := py - m.2
    let distance := Real.sqrt (dx * dx + dy * dy)
    if distance < mouseRadius ∧ distance > 0 then
      let force := (mouseRadius - distance) / mouseRadius * 0.5
      (-(dx / distance) * force, -(dy / distance) * force)
    else (0, 0)

/-- The speed clamp of script.js lines 230 to 234: if the speed exceeds
maxVelocity the velocity is rescaled to magnitude maxVelocity,
preserving direction. -/
def clampVel (vx vy : ℝ) : ℝ × ℝ :=
  let speed := Real.sqrt (vx * vx + vy * vy)
  if speed > maxVelocity then (vx / speed * maxVelocity, vy / speed * maxVelocity)
  else (vx, vy)

/-- The per-axis wall bounce of script.js lines 241 to 255: a coordinate
below radius is clamped to radius, one above dim - radius is clamped to
dim - radius, and in either case the velocity component is multiplied
by -0.9; otherwise both are unchanged. -/
def bounce1D (pos r dim v : ℝ) : ℝ × ℝ :=
  if pos < r then (r, v * (-0.9))
  else if pos > dim - r then (dim - r, v * (-0.9))
  else (pos, v)

/-- The integration step updateParticle (script.js lines 200 to 256) for
canvas of width w and height h.  The two Math.random() draws of the
Brownian noise are the parameters n.1 and n.2. -/
def updateParticle (mouse : Option (ℝ × ℝ)) (w h : ℝ) (n : ℝ × ℝ)
    (p : Particle) : Particle :=
  let ma := mouseAccel mouse p.x p.y
  let ax := p.ax + ma.1
  let ay := p.ay + ma.2
  let vx1 := (p.vx + ax + (n.1 - 0.5) * brownianStrength) * damping
  let vy1 := (p.vy + ay + (n.2 - 0.5) * brownianStrength) * damping
  let cv := clampVel vx1 vy1
  let x1 := p.x + cv.1
  let y1 := p.y + cv.2
  let bx := bounce1D x1 p.radius w cv.1
  let bty := bounce1D y1 p.radius h cv.2
  { p with x := bx.1, vx := bx.2, y := bty.1, vy := bty.2, ax := ax, ay := ay }

/-- The acceleration reset at the top of calculateForces
(script.js lines 133 to 136). -/
def resetAccel (p : Particle) : Particle :=
  { p with ax := 0, ay := 0 }

/-- The screen position at which drawParticle renders the glow and the
core of a particle (script.js lines 110 to 126). -/
def posOf (p : Particle) : ℝ × ℝ :=
  (p.x, p.y)

/-- The connection segments drawn by drawConnections
(script.js lines 173 to 198): for every pair i < j, in loop order, whose
distance is below connectionDistance, a line from the position of
particle i to the position of particle j. -/
def connectionsOf : List Particle → List ((ℝ × ℝ) × (ℝ × ℝ))
  | [] => []
  | p :: rest =>
    rest.foldr
      (fun q acc =>
        if pairDist p q < connectionDistance then (posOf p, posOf q) :: acc else acc)
      (connectionsOf rest)

/-- The index pairs (i, j) with i < j < n, in the loop order of
calculateForces (script.js lines 139 to 140). -/
def pairIdx (n : ℕ) : List (ℕ × ℕ) :=
  (List.range n).flatMap fun i =>
    ((List.range n).filter fun j => i < j).map fun j => (i, j)

/-- Application of one pair interaction to the particle list, writing
the two updated particles back at their indices. -/
def applyPairAt (ps : List Particle) (i j : ℕ) : List Particle :=
  match ps[i]?, ps[j]? with
  | some p, some q =>
    let r := pairUpdate p q
    (ps.set i r.1).set j r.2
  | _, _ => ps

/-- The whole of calculateForces (script.js lines 129 to 171): reset all
acceleration accumulators, then apply every pair interaction in loop
order. -/
def forcePass (ps : List Particle) : List Particle :=
  (pairIdx ps.length).foldl (fun acc ij => applyPairAt acc ij.1 ij.2) (ps.map resetAccel)

/-- The output of one animation frame. -/
structure Frame where
  connections : List ((ℝ × ℝ) × (ℝ × ℝ))
  newParticles : List Particle
  glyphs : List (ℝ × ℝ)

/-- One frame of the animate loop (script.js lines 258 to 277), in
source order: the connection lines are drawn first, from the particle
list as it stands at the start of the frame; then calculateForces runs;
then each particle is updated (with its own pair of noise draws) and its
glyph is drawn at the updated position. -/
def animateFrame (mouse : Option (ℝ × ℝ)) (w h : ℝ) (noise : List (ℝ × ℝ))
    (ps : List Particle) : Frame :=
  let conns := connectionsOf ps
  let forced := forcePass ps
  let updated := List.zipWith (updateParticle mouse w h) noise forced
  { connections := conns, newParticles := updated, glyphs := updated.map posOf }

end TensorNetworkAnimation

namespace BlochSphereIcon

/-- The quadratic coefficient A of script.js line 403, with the
projection constants a = 0.3, b = 0.9, c = 0.2 of line 400. -/
def Acoef : ℝ := (0.3 * 0.3) / (0.9 * 0.9) + 1 + 0.2 * 0.2

/-- The quadratic coefficient B of script.js line 404. -/
def Bcoef (dx dy : ℝ) : ℝ := -2 * 0.3 * dx / (0.9 * 0.9) - 2 * 0.2 * dy

/-- The quadratic coefficient C of script.js line 405. -/
def Ccoef (dx dy : ℝ) : ℝ := (dx * dx) / (0.9 * 0.9) + dy * dy - 1

/-- The discriminant of script.js line 407. -/
def discriminant (dx dy : ℝ) : ℝ :=
  Bcoef dx dy * Bcoef dx dy - 4 * Acoef * Ccoef dx dy

/-- The root y1 of script.js line 412. -/
def rootPlus (dx dy : ℝ) : ℝ :=
  (-(Bcoef dx dy) + Real.sqrt (discriminant dx dy)) / (2 * Acoef)

/-- The root y2 of script.js line 413. -/
def rootMinus (dx dy : ℝ) : ℝ :=
  (-(Bcoef dx dy) - Real.sqrt (discriminant dx dy)) / (2 * Acoef)

/-- The root selection of script.js line 416: y1 if non-negative, else
y2 if non-negative, else the larger of the two. -/
def chosenRoot (dx dy : ℝ) : ℝ :=
  if rootPlus dx dy ≥ 0 then rootPlus dx dy
  else if rootMinus dx dy ≥ 0 then rootMinus dx dy
  else max (rootPlus dx dy) (rootMinus dx dy)

/-- The target-vector computation of handleMouseMove
(script.js lines 407 to 452), as a function of the pointer offset
(dx, dy) relative to the sphere center, normalized by the on-screen
sphere radius.  The argument old is the target vector before the event;
it is returned unchanged on the one path of the source that assigns
nothing (discriminant below zero and zero-length 2D offset). -/
def inverseProject (dx dy : ℝ) (old : ℝ × ℝ × ℝ) : ℝ × ℝ × ℝ :=
  if discriminant dx dy ≥ 0 then
    let ty := chosenRoot dx dy
    let tx := (dx - 0.3 * ty) / 0.9
    let tz := -dy + 0.2 * ty
    let len := Real.sqrt (tx * tx + ty * ty + tz * tz)
    if len > 0 then (tx / len, ty / len, tz / len) else (tx, ty, tz)
  else
    let len2D := Real.sqrt (dx * dx + dy * dy)
    if len2D > 0 then
      let ndx := dx / len2D
      let ndy := dy / len2D
      let tx := ndx / 0.9
      let tz := -ndy
      let len := Real.sqrt (tx * tx + tz * tz)
      if len > 0 then (tx / len, 0, tz / len) else (tx, 0, tz)
    else old

/-- The fixed oblique projection cartesianToScreen
(script.js lines 587 to 600). -/
def cartesianToScreen (x y z radius : ℝ) : ℝ × ℝ :=
  (30 + x * radius * 0.9 + y * radius * 0.3, 30 - z * radius + y * radius * 0.2)

/-- The forward projection expressed as a normalized offset from the
sphere center: the screen position of the unit vector (x, y, z) under
cartesianToScreen, relative to the center (30, 30) and divided by the
sphere radius 22. -/
def forwardOffset (x y z : ℝ) : ℝ × ℝ :=
  (((cartesianToScreen x y z 22).1 - 30) / 22,
   ((cartesianToScreen x y z 22).2 - 30) / 22)

/-- The interpolation factor of script.js line 604. -/
def lerpFactor : ℝ := 0.08

/-- The componentwise interpolation of script.js lines 606 to 608. -/
def sphereLerp (v t : ℝ × ℝ × ℝ) : ℝ × ℝ × ℝ :=
  (v.1 + (t.1 - v.1) * lerpFactor,
   v.2.1 + (t.2.1 - v.2.1) * lerpFactor,
   v.2.2 + (t.2.2 - v.2.2) * lerpFactor)

/-- One displayed-vector update of the animate loop of BlochSphereIcon
(script.js lines 602 to 616): interpolate each component toward the
target, then renormalize when the length is positive. -/
def sphereStep (v t : ℝ × ℝ × ℝ) : ℝ × ℝ × ℝ :=
  let u := sphereLerp v t
  let len := Real.sqrt (u.1 * u.1 + u.2.1 * u.2.1 + u.2.2 * u.2.2)
  if len > 0 then (u.1 / len, u.2.1 / len, u.2.2 / len) else u

/-- The root selection and back-substitution exactly as worded by the
specification (spec.md section 4.2 and the claim text): pick y1 if it is
non-negative, otherwise y2 if that is non-negative, otherwise the larger
of the two roots; back-substitute x and z; renormalize the resulting
vector to unit length.  Stated independently of inverseProject for
comparison with it. -/
def specFrontSelect (dx dy : ℝ) : ℝ × ℝ × ℝ :=
  let sqrtD := Real.sqrt (discriminant dx dy)
  let y1 := (-(Bcoef dx dy) + sqrtD) / (2 * Acoef)
  let y2 := (-(Bcoef dx dy) - sqrtD) / (2 * Acoef)
  let y := if y1 ≥ 0 then y1 else if y2 ≥ 0 then y2 else max y1 y2
  let x := (dx - 0.3 * y) / 0.9
  let z := -dy + 0.2 * y
  let len := Real.sqrt (x * x + y * y + z * z)
  (x / len, y / len, z / len)

end BlochSphereIcon

end

open TensorNetworkAnimation BlochSphereIcon

/-- Claim C5: for every pair of particles processed by the per-frame
force computation, the acceleration contribution added to the first
particle is the exact componentwise negation of the contribution added
to the second (the first receives (-fx, -fy) and the second
(+fx, +fy)); this also holds trivially on the cutoff path, where both
contributions vanish. -/
theorem claim5_newton_third_law (p q : Particle) :
    ((pairUpdate p q).1.ax - p.ax, (pairUpdate p q).1.ay - p.ay)
      = (-((pairUpdate p q).2.ax - q.ax), -((pairUpdate p q).2.ay - q.ay)) := by
  unfold pairUpdate
  by_cases h : pairSkip p q
  · rw [if_pos h]
    simp
  · rw [if_neg h]
    simp

/-- Claim C3, failing input: two particles at the identical position
(10, 10) have pairwise distance zero, yet the cutoff test of
calculateForces does not skip the pair, so the direction normalization
fx = (dx / dist) * forceMag at script.js line 160 divides by zero. -/
theorem claim3_coincident_pair_reaches_zero_divisor :
    pairDist ⟨10, 10, 0, 0, 0, 0, 3, 1⟩ ⟨10, 10, 0, 0, 0, 0, 3, -1⟩ = 0 ∧
    ¬ pairSkip ⟨10, 10, 0, 0, 0, 0, 3, 1⟩ ⟨10, 10, 0, 0, 0, 0, 3, -1⟩ := by
  have h : pairDist ⟨10, 10, 0, 0, 0, 0, 3, 1⟩ ⟨10, 10, 0, 0, 0, 0, 3, -1⟩ = 0 := by
    unfold pairDist
    norm_num
  refine ⟨h, ?_⟩
  unfold pairSkip screeningLength
  rw [h]
  norm_num

/-- Claim C6: a coordinate that leaves the interval from radius to
dimension minus radius after advancing is clamped to the violated
boundary and the matching velocity component is multiplied by -0.9,
while a coordinate inside the interval and its velocity component are
left unchanged (bounce1D is the per-axis boundary step of
updateParticle). -/
theorem claim6_reflective_boundary (pos r dim v : ℝ) :
    (pos < r → bounce1D pos r dim v = (r, v * (-0.9))) ∧
    (r ≤ pos → dim - r < pos → bounce1D pos r dim v = (dim - r, v * (-0.9))) ∧
    (r ≤ pos → pos ≤ dim - r → bounce1D pos r dim v = (pos, v)) := by
  refine ⟨fun h1 => ?_, fun h1 h2 => ?_, fun h1 h2 => ?_⟩
  · unfold bounce1D
    rw [if_pos h1]
  · unfold bounce1D
    rw [if_neg (not_lt.mpr h1), if_pos h2]
  · unfold bounce1D
    rw [if_neg (not_lt.mpr h1), if_neg (not_lt.mpr h2)]

/-- Witness for claim C6 at the concrete input pos = 1, r = 3,
dim = 100, v = 2: the coordinate is below the lower boundary, so it is
clamped to 3 and the velocity is scaled to 2 * (-0.9). -/
theorem claim6_reflective_boundary_witness :
    (1 : ℝ) < 3 ∧ bounce1D 1 3 100 2 = (3, 2 * (-0.9)) :=
  ⟨by norm_num, (claim6_reflective_boundary 1 3 100 2).1 (by norm_num)⟩

/-- Claim C9: with no pointer present there is no attraction
contribution; with a pointer present, a particle at distance d from it
receives the contribution pointing toward the pointer, of squared
magnitude equal to the squared linear falloff factor, exactly when
0 < d < mouseRadius, and the falloff factor is then positive; in every
other case (d = 0 included) the contribution is zero. -/
theorem claim9_pointer_attraction (px py mx my : ℝ) :
    mouseAccel none px py = (0, 0) ∧
    (∀ d : ℝ, d = Real.sqrt ((px - mx) * (px - mx) + (py - my) * (py - my)) →
      (¬ (d < mouseRadius ∧ d > 0) → mouseAccel (some (mx, my)) px py = (0, 0)) ∧
      (d < mouseRadius → 0 < d →
        mouseAccel (some (mx, my)) px py =
          (((mx - px) / d) * ((mouseRadius - d) / mouseRadius * 0.5),
           ((my - py) / d) * ((mouseRadius - d) / mouseRadius * 0.5)) ∧
        0 < (mouseRadius - d) / mouseRadius * 0.5 ∧
        (mouseAccel (some (mx, my)) px py).1 * (mouseAccel (some (mx, my)) px py).1
            + (mouseAccel (some (mx, my)) px py).2 * (mouseAccel (some (mx, my)) px py).2
          = ((mouseRadius - d) / mouseRadius * 0.5)
            * ((mouseRadius - d) / mouseRadius * 0.5))) := by
  constructor
  · rfl
  · intro d hd
    constructor
    · intro hno
      simp only [mouseAccel]
      rw [← hd, if_neg hno]
    · intro hlt hpos
      have hdd : d * d = (px - mx) * (px - mx) + (py - my) * (py - my) := by
        rw [hd]
        exact Real.mul_self_sqrt
          (by nlinarith [mul_self_nonneg (px - mx), mul_self_nonneg (py - my)])
      have hval : mouseAccel (some (mx, my)) px py =
          (((mx - px) / d) * ((mouseRadius - d) / mouseRadius * 0.5),
           ((my - py) / d) * ((mouseRadius - d) / mouseRadius * 0.5)) := by
        simp only [mouseAccel]
        rw [← hd, if_pos ⟨hlt, hpos⟩]
        simp only [Prod.mk.injEq]
        constructor <;> ring
      have hfpos : 0 < (mouseRadius - d) / mouseRadius * 0.5 := by
        unfold mouseRadius at hlt ⊢
        have h150 : (0 : ℝ) < 150 - d := by linarith
        positivity
      refine ⟨hval, hfpos, ?_⟩
      rw [hval]
      have hdne : d * d ≠ 0 := by positivity
      have hstep : ((mx - px) / d) * ((mouseRadius - d) / mouseRadius * 0.5)
            * (((mx - px) / d) * ((mouseRadius - d) / mouseRadius * 0.5))
          + ((my - py) / d) * ((mouseRadius - d) / mouseRadius * 0.5)
            * (((my - py) / d) * ((mouseRadius - d) / mouseRadius * 0.5))
          = ((mouseRadius - d) / mouseRadius * 0.5)
              * ((mouseRadius - d) / mouseRadius * 0.5)
            * (((px - mx) * (px - mx) + (py - my) * (py - my)) / (d * d)) := by
        ring
      rw [hstep, ← hdd, div_self hdne, mul_one]

/-- Witness for claim C9: pointer at the origin, particle at (30, 40),
distance 50, inside the interaction radius; the contribution is the
toward-pointer direction scaled by the linear falloff. -/
theorem claim9_pointer_attraction_witness :
    (50 : ℝ) < mouseRadius ∧ (0 : ℝ) < 50 ∧
    mouseAccel (some (0, 0)) 30 40 =
      (((0 - 30) / 50) * ((mouseRadius - 50) / mouseRadius * 0.5),
       ((0 - 40) / 50) * ((mouseRadius - 50) / mouseRadius * 0.5)) := by
  have h50 : (50 : ℝ) = Real.sqrt ((30 - 0) * (30 - 0) + (40 - 0) * (40 - 0)) := by
    rw [show ((30 : ℝ) - 0) * (30 - 0) + (40 - 0) * (40 - 0) = 50 * 50 by norm_num]
    exact (Real.sqrt_mul_self (by norm_num)).symm
  have hrad : (50 : ℝ) < mouseRadius := by
    unfold mouseRadius
    norm_num
  exact ⟨hrad, by norm_num,
    (((claim9_pointer_attraction 30 40 0 0).2 50 h50).2 hrad (by norm_num)).1⟩

/-- The speed clamp bounds the squared speed by maxVelocity squared. -/
theorem clampVel_sq_le (vx vy : ℝ) :
    (clampVel vx vy).1 * (clampVel vx vy).1 + (clampVel vx vy).2 * (clampVel vx vy).2
      ≤ maxVelocity * maxVelocity := by
  unfold clampVel
  by_cases hgt : Real.sqrt (vx * vx + vy * vy) > maxVelocity
  · rw [if_pos hgt]
    have hM : (0 : ℝ) < maxVelocity := by
      unfold maxVelocity
      norm_num
    have hs0 : 0 < Real.sqrt (vx * vx + vy * vy) := lt_trans hM hgt
    have hsq : Real.sqrt (vx * vx + vy * vy) * Real.sqrt (vx * vx + vy * vy)
        = vx * vx + vy * vy :=
      Real.mul_self_sqrt (by nlinarith [mul_self_nonneg vx, mul_self_nonneg vy])
    have hne : Real.sqrt (vx * vx + vy * vy) ≠ 0 := ne_of_gt hs0
    have heq : vx / Real.sqrt (vx * vx + vy * vy) * maxVelocity
          * (vx / Real.sqrt (vx * vx + vy * vy) * maxVelocity)
        + vy / Real.sqrt (vx * vx + vy * vy) * maxVelocity
          * (vy / Real.sqrt (vx * vx + vy * vy) * maxVelocity)
        = maxVelocity * maxVelocity := by
      field_simp
      linear_combination (-(maxVelocity ^ 2)) * hsq
    rw [heq]
  · rw [if_neg hgt]
    push_neg at hgt
    have hsq : Real.sqrt (vx * vx + vy * vy) * Real.sqrt (vx * vx + vy * vy)
        = vx * vx + vy * vy :=
      Real.mul_self_sqrt (by nlinarith [mul_self_nonneg vx, mul_self_nonneg vy])
    nlinarith [Real.sqrt_nonneg (vx * vx + vy * vy)]

/-- A wall bounce never increases the square of the velocity component. -/
theorem bounce1D_v_sq_le (pos r dim v : ℝ) :
    (bounce1D pos r dim v).2 * (bounce1D pos r dim v).2 ≤ v * v := by
  unfold bounce1D
  by_cases h1 : pos < r
  · rw [if_pos h1]
    nlinarith [mul_self_nonneg v]
  · rw [if_neg h1]
    by_cases h2 : pos > dim - r
    · rw [if_pos h2]
      nlinarith [mul_self_nonneg v]
    · rw [if_neg h2]

/-- The quadratic coefficient A is the positive constant 259/225. -/
theorem Acoef_eq : Acoef = 259 / 225 := by
  unfold Acoef
  norm_num

/-- Back-substitution identity: for any offset (dx, dy) and any y, the
squared norm of the back-substituted vector minus one equals the
quadratic A y^2 + B y + C, which is exactly how the coefficients of
script.js lines 403 to 405 were derived. -/
theorem quad_identity (dx dy y : ℝ) :
    ((dx - 0.3 * y) / 0.9) * ((dx - 0.3 * y) / 0.9) + y * y
        + (-dy + 0.2 * y) * (-dy + 0.2 * y) - 1
      = Acoef * (y * y) + Bcoef dx dy * y + Ccoef dx dy := by
  unfold Acoef Bcoef Ccoef
  ring

/-- With a non-negative discriminant the selected root is always y1, the
larger root: the source ternary never selects y2, because y2 can only be
non-negative when y1 already is. -/
theorem chosenRoot_eq_rootPlus (dx dy : ℝ) :
    chosenRoot dx dy = rootPlus dx dy := by
  unfold chosenRoot
  by_cases h1 : rootPlus dx dy ≥ 0
  · rw [if_pos h1]
  · rw [if_neg h1]
    have hle : rootMinus dx dy ≤ rootPlus dx dy := by
      unfold rootPlus rootMinus
      have hA : (0 : ℝ) < 2 * Acoef := by
        rw [Acoef_eq]
        norm_num
      have hs : 0 ≤ Real.sqrt (discriminant dx dy) := Real.sqrt_nonneg _
      exact (div_le_div_iff_of_pos_right hA).mpr (by linarith)
    have h2 : ¬ rootMinus dx dy ≥ 0 := fun hc => h1 (le_trans hc hle)
    rw [if_neg h2, max_eq_left hle]

/-- Both y1 and y2 are genuine roots of the quadratic when the
discriminant is non-negative; stated for the selected root. -/
theorem chosenRoot_is_root (dx dy : ℝ) (h : 0 ≤ discriminant dx dy) :
    Acoef * (chosenRoot dx dy * chosenRoot dx dy)
        + Bcoef dx dy * chosenRoot dx dy + Ccoef dx dy = 0 := by
  rw [chosenRoot_eq_rootPlus dx dy]
  have hs : Real.sqrt (discriminant dx dy) * Real.sqrt (discriminant dx dy)
      = discriminant dx dy := Real.mul_self_sqrt h
  have hA : Acoef ≠ 0 := by
    rw [Acoef_eq]
    norm_num
  have hexp : Acoef * (rootPlus dx dy * rootPlus dx dy)
        + Bcoef dx dy * rootPlus dx dy + Ccoef dx dy
      = (Real.sqrt (discriminant dx dy) * Real.sqrt (discriminant dx dy)
          - discriminant dx dy) / (4 * Acoef) := by
    unfold rootPlus discriminant
    field_simp
    ring
  rw [hexp, hs, sub_self, zero_div]

/-- Any root of the quadratic back-substitutes to a point of the unit
sphere. -/
theorem unit_of_root (dx dy y : ℝ)
    (hy : Acoef * (y * y) + Bcoef dx dy * y + Ccoef dx dy = 0) :
    ((dx - 0.3 * y) / 0.9) * ((dx - 0.3 * y) / 0.9) + y * y
        + (-dy + 0.2 * y) * (-dy + 0.2 * y) = 1 := by
  have h := quad_identity dx dy y
  linarith

/-- On the non-negative-discriminant branch the back-substituted target
already has length one, so the renormalization of script.js lines 421
to 426 divides by one and inverseProject returns the back-substituted
vector itself. -/
theorem inverseProject_of_nonneg (dx dy : ℝ) (old : ℝ × ℝ × ℝ)
    (h : 0 ≤ discriminant dx dy) :
    inverseProject dx dy old =
      ((dx - 0.3 * chosenRoot dx dy) / 0.9, chosenRoot dx dy,
       -dy + 0.2 * chosenRoot dx dy) := by
  have hunit := unit_of_root dx dy (chosenRoot dx dy) (chosenRoot_is_root dx dy h)
  simp only [inverseProject]
  rw [if_pos h, hunit, Real.sqrt_one, if_pos one_pos]
  simp

/-- Claim C7: on the non-negative-discriminant branch, inverseProject
computes exactly the root selection, back-substitution and
renormalization worded by the specification (specFrontSelect). -/
theorem claim7_root_selection (dx dy : ℝ) (old : ℝ × ℝ × ℝ)
    (h : 0 ≤ discriminant dx dy) :
    inverseProject dx dy old = specFrontSelect dx dy := by
  have hunit := unit_of_root dx dy (chosenRoot dx dy) (chosenRoot_is_root dx dy h)
  have hch : (if (-(Bcoef dx dy) + Real.sqrt (discriminant dx dy)) / (2 * Acoef) ≥ 0
        then (-(Bcoef dx dy) + Real.sqrt (discriminant dx dy)) / (2 * Acoef)
        else if (-(Bcoef dx dy) - Real.sqrt (discriminant dx dy)) / (2 * Acoef) ≥ 0
          then (-(Bcoef dx dy) - Real.sqrt (discriminant dx dy)) / (2 * Acoef)
          else max ((-(Bcoef dx dy) + Real.sqrt (discriminant dx dy)) / (2 * Acoef))
            ((-(Bcoef dx dy) - Real.sqrt (discriminant dx dy)) / (2 * Acoef)))
      = chosenRoot dx dy := rfl
  rw [inverseProject_of_nonneg dx dy old h]
  simp only [specFrontSelect]
  rw [hch, hunit, Real.sqrt_one]
  simp

/-- Witness for claim C7 at the offset (0, 0), where the discriminant is
4 * Acoef and hence positive. -/
theorem claim7_root_selection_witness :
    0 ≤ discriminant 0 0 ∧
    inverseProject 0 0 (0.707, 0, 0.707) = specFrontSelect 0 0 := by
  have h : 0 ≤ discriminant 0 0 := by
    unfold discriminant Acoef Bcoef Ccoef
    norm_num
  exact ⟨h, claim7_root_selection 0 0 (0.707, 0, 0.707) h⟩

/-- With no pointer present the attraction contribution vanishes. -/
theorem mouseAccel_none (px py : ℝ) : mouseAccel none px py = (0, 0) := rfl

/-- Claim C10: in every frame, the connection lines are computed from
the particle list as it stands at the start of the frame (the previous
frame final positions), and every glyph is drawn at the post-integration
position of its particle; on a concrete two-particle state the drawn
connection keeps the old endpoint x = 100 while the glyph of the same
particle is drawn strictly to the right of it. -/
theorem claim10_connections_use_previous_positions (mouse : Option (ℝ × ℝ))
    (w h : ℝ) (noise : List (ℝ × ℝ)) (ps : List Particle) :
    (animateFrame mouse w h noise ps).connections = connectionsOf ps ∧
    (animateFrame mouse w h noise ps).glyphs
      = ((animateFrame mouse w h noise ps).newParticles).map posOf ∧
    (animateFrame none 1000 1000 [(0.5, 0.5), (0.5, 0.5)]
        [⟨100, 100, 1, 0, 0, 0, 3, 1⟩, ⟨150, 100, 0, 0, 0, 0, 3, -1⟩]).connections
      = [((100, 100), (150, 100))] ∧
    100 < (((animateFrame none 1000 1000 [(0.5, 0.5), (0.5, 0.5)]
        [⟨100, 100, 1, 0, 0, 0, 3, 1⟩,
         ⟨150, 100, 0, 0, 0, 0, 3, -1⟩]).glyphs).getD 0 (0, 0)).1 := by
  set E := Real.exp (-(50 : ℝ) / screeningLength) with hEdef
  have hE0 : 0 < E := by
    rw [hEdef]
    exact Real.exp_pos _
  have hE1 : E < 1 := by
    rw [hEdef]
    calc Real.exp (-(50 : ℝ) / screeningLength) < Real.exp 0 := by
          apply Real.exp_lt_exp.mpr
          unfold screeningLength
          norm_num
      _ = 1 := Real.exp_zero
  have hdist : pairDist (⟨100, 100, 1, 0, 0, 0, 3, 1⟩ : Particle)
      ⟨150, 100, 0, 0, 0, 0, 3, -1⟩ = 50 := by
    show Real.sqrt (((150 : ℝ) - 100) * ((150 : ℝ) - 100)
        + ((100 : ℝ) - 100) * ((100 : ℝ) - 100)) = 50
    rw [show ((150 : ℝ) - 100) * ((150 : ℝ) - 100)
        + ((100 : ℝ) - 100) * ((100 : ℝ) - 100) = 50 * 50 by norm_num]
    exact Real.sqrt_mul_self (by norm_num)
  have hskip : ¬ pairSkip (⟨100, 100, 1, 0, 0, 0, 3, 1⟩ : Particle)
      ⟨150, 100, 0, 0, 0, 0, 3, -1⟩ := by
    unfold pairSkip screeningLength
    rw [hdist]
    norm_num
  have hforce : pairForce (⟨100, 100, 1, 0, 0, 0, 3, 1⟩ : Particle)
      ⟨150, 100, 0, 0, 0, 0, 3, -1⟩ = (-(2/49) * E, 0) := by
    simp only [pairForce]
    rw [hdist, ← hEdef]
    unfold coulombStrength softening
    norm_num
  have hpu : pairUpdate (⟨100, 100, 1, 0, 0, 0, 3, 1⟩ : Particle)
      ⟨150, 100, 0, 0, 0, 0, 3, -1⟩
      = ((⟨100, 100, 1, 0, 2/49 * E, 0, 3, 1⟩ : Particle),
         ⟨150, 100, 0, 0, -(2/49) * E, 0, 3, -1⟩) := by
    unfold pairUpdate
    rw [if_neg hskip, hforce]
    simp only [Prod.mk.injEq, Particle.mk.injEq]
    norm_num
  have hfp : forcePass [(⟨100, 100, 1, 0, 0, 0, 3, 1⟩ : Particle),
      ⟨150, 100, 0, 0, 0, 0, 3, -1⟩]
      = [(⟨100, 100, 1, 0, 2/49 * E, 0, 3, 1⟩ : Particle),
         ⟨150, 100, 0, 0, -(2/49) * E, 0, 3, -1⟩] := by
    unfold forcePass
    have hidx : pairIdx ([(⟨100, 100, 1, 0, 0, 0, 3, 1⟩ : Particle),
        ⟨150, 100, 0, 0, 0, 0, 3, -1⟩].length) = [(0, 1)] := rfl
    rw [hidx]
    have hra : [(⟨100, 100, 1, 0, 0, 0, 3, 1⟩ : Particle),
        ⟨150, 100, 0, 0, 0, 0, 3, -1⟩].map resetAccel
        = [(⟨100, 100, 1, 0, 0, 0, 3, 1⟩ : Particle),
           ⟨150, 100, 0, 0, 0, 0, 3, -1⟩] := rfl
    rw [hra]
    simp only [List.foldl]
    show ([(⟨100, 100, 1, 0, 0, 0, 3, 1⟩ : Particle),
        ⟨150, 100, 0, 0, 0, 0, 3, -1⟩].set 0
        (pairUpdate (⟨100, 100, 1, 0, 0, 0, 3, 1⟩ : Particle)
          ⟨150, 100, 0, 0, 0, 0, 3, -1⟩).1).set 1
        (pairUpdate (⟨100, 100, 1, 0, 0, 0, 3, 1⟩ : Particle)
          ⟨150, 100, 0, 0, 0, 0, 3, -1⟩).2
        = [(⟨100, 100, 1, 0, 2/49 * E, 0, 3, 1⟩ : Particle),
           ⟨150, 100, 0, 0, -(2/49) * E, 0, 3, -1⟩]
    rw [hpu]
    rfl
  have hux : (updateParticle none 1000 1000 (0.5, 0.5)
      (⟨100, 100, 1, 0, 2/49 * E, 0, 3, 1⟩ : Particle)).x = 100 + (1 + 2/49 * E) := by
    simp only [updateParticle, mouseAccel]
    rw [show (1 + (2/49 * E + 0) + ((0.5 : ℝ) - 0.5) * brownianStrength) * damping
        = 1 + 2/49 * E by unfold brownianStrength damping; ring]
    rw [show ((0 : ℝ) + (0 + 0) + ((0.5 : ℝ) - 0.5) * brownianStrength) * damping
        = 0 by unfold brownianStrength damping; ring]
    have hcv : clampVel (1 + 2/49 * E) 0 = (1 + 2/49 * E, 0) := by
      unfold clampVel
      rw [show ((1 : ℝ) + 2/49 * E) * (1 + 2/49 * E) + 0 * 0
          = (1 + 2/49 * E) * (1 + 2/49 * E) by ring]
      rw [Real.sqrt_mul_self (by nlinarith : (0 : ℝ) ≤ 1 + 2/49 * E)]
      rw [if_neg (by unfold maxVelocity; nlinarith : ¬ ((1 : ℝ) + 2/49 * E > maxVelocity))]
    rw [hcv]
    have hb : bounce1D (100 + (1 + 2/49 * E)) 3 1000 (1 + 2/49 * E)
        = (100 + (1 + 2/49 * E), 1 + 2/49 * E) := by
      unfold bounce1D
      rw [if_neg (by nlinarith : ¬ (100 + ((1 : ℝ) + 2/49 * E) < 3)),
        if_neg (by nlinarith : ¬ (100 + ((1 : ℝ) + 2/49 * E) > 1000 - 3))]
    dsimp only
    rw [hb]
  refine ⟨rfl, rfl, ?_, ?_⟩
  · show connectionsOf [(⟨100, 100, 1, 0, 0, 0, 3, 1⟩ : Particle),
        ⟨150, 100, 0, 0, 0, 0, 3, -1⟩] = [((100, 100), (150, 100))]
    simp only [connectionsOf, List.foldr]
    rw [hdist, if_pos (by unfold connectionDistance; norm_num : (50 : ℝ) < connectionDistance)]
    rfl
  · show (100 : ℝ) < (((List.zipWith (updateParticle none 1000 1000)
        [(0.5, 0.5), (0.5, 0.5)]
        (forcePass [(⟨100, 100, 1, 0, 0, 0, 3, 1⟩ : Particle),
          ⟨150, 100, 0, 0, 0, 0, 3, -1⟩])).map posOf).getD 0 (0, 0)).1
    rw [hfp]
    simp only [List.zipWith, List.map, List.getD, List.get?, posOf]
    show (100 : ℝ) < (((updateParticle none 1000 1000 (0.5, 0.5)
        (⟨100, 100, 1, 0, 2/49 * E, 0, 3, 1⟩ : Particle)).x,
        (updateParticle none 1000 1000 (0.5, 0.5)
        (⟨100, 100, 1, 0, 2/49 * E, 0, 3, 1⟩ : Particle)).y) : ℝ × ℝ).1
    dsimp only
    rw [hux]
    nlinarith

/-- Claim C1 (amended): for every unit vector (x, y, z) whose
y-component is the larger of the two quadratic roots determined by its
projected offset (equivalently, 0 <= B + 2*A*y, the front-facing
solution), projecting forward through the fixed oblique projection and
running the inverse projection returns exactly (x, y, z); in particular
the round trip is within the 1e-6 tolerance, and the discriminant is
automatically non-negative there. -/
theorem claim1_round_trip_front (x y z : ℝ) (old : ℝ × ℝ × ℝ)
    (hunit : x * x + y * y + z * z = 1)
    (hfront : 0 ≤ Bcoef (forwardOffset x y z).1 (forwardOffset x y z).2
        + 2 * Acoef * y) :
    inverseProject (forwardOffset x y z).1 (forwardOffset x y z).2 old
      = (x, y, z) := by
  have hdxe : (forwardOffset x y z).1 = 0.9 * x + 0.3 * y := by
    unfold forwardOffset cartesianToScreen
    ring
  have hdye : (forwardOffset x y z).2 = -z + 0.2 * y := by
    unfold forwardOffset cartesianToScreen
    ring
  set dx := (forwardOffset x y z).1
  set dy := (forwardOffset x y z).2
  have hq : Acoef * (y * y) + Bcoef dx dy * y + Ccoef dx dy = 0 := by
    rw [hdxe, hdye]
    unfold Acoef Bcoef Ccoef
    linear_combination hunit
  have hdisc : discriminant dx dy
      = (Bcoef dx dy + 2 * Acoef * y) * (Bcoef dx dy + 2 * Acoef * y) := by
    unfold discriminant
    linear_combination (-4 * Acoef) * hq
  have hd0 : 0 ≤ discriminant dx dy := by
    rw [hdisc]
    exact mul_self_nonneg _
  have hsqrt : Real.sqrt (discriminant dx dy) = Bcoef dx dy + 2 * Acoef * y := by
    rw [hdisc]
    exact Real.sqrt_mul_self hfront
  have hA : Acoef ≠ 0 := by
    rw [Acoef_eq]
    norm_num
  have hplus : rootPlus dx dy = y := by
    unfold rootPlus
    rw [hsqrt]
    field_simp
  rw [inverseProject_of_nonneg dx dy old hd0, chosenRoot_eq_rootPlus, hplus,
    hdxe, hdye]
  simp only [Prod.mk.injEq]
  exact ⟨by ring, trivial, by ring⟩

/-- Witness for the amended claim C1 at the unit vector
(4/21, 16/21, 13/21), which is front-facing; its projected offset is
(2/5, -7/15), and the round trip is exact. -/
theorem claim1_round_trip_front_witness :
    ((4/21 : ℝ) * (4/21) + (16/21) * (16/21) + (13/21) * (13/21) = 1) ∧
    0 ≤ Bcoef (forwardOffset (4/21) (16/21) (13/21)).1
        (forwardOffset (4/21) (16/21) (13/21)).2 + 2 * Acoef * (16/21) ∧
    inverseProject (forwardOffset (4/21) (16/21) (13/21)).1
        (forwardOffset (4/21) (16/21) (13/21)).2 (0.707, 0, 0.707)
      = (4/21, 16/21, 13/21) := by
  refine ⟨by norm_num,
    by norm_num [forwardOffset, cartesianToScreen, Bcoef, Acoef], ?_⟩
  exact claim1_round_trip_front (4/21) (16/21) (13/21) (0.707, 0, 0.707)
    (by norm_num)
    (by norm_num [forwardOffset, cartesianToScreen, Bcoef, Acoef])

/-- Counterexample to claim C1 as stated: (2/3, -2/3, 1/3) is a unit
vector, its forward projection is the offset (2/5, -7/15), the
discriminant there is non-negative, yet the inverse projection returns
(4/21, 16/21, 13/21), whose y-component differs from -2/3 by far more
than the 1e-6 tolerance (the point is back-facing, and the code always
selects the larger root). -/
theorem claim1_counterexample :
    ((2/3 : ℝ) * (2/3) + (-2/3) * (-2/3) + (1/3) * (1/3) = 1) ∧
    forwardOffset (2/3) (-2/3) (1/3) = (2/5, -7/15) ∧
    0 ≤ discriminant (2/5) (-7/15) ∧
    inverseProject (2/5) (-7/15) (0.707, 0, 0.707) = (4/21, 16/21, 13/21) ∧
    (16/21 : ℝ) - (-2/3) > 1e-6 := by
  have hdisc : discriminant (2/5) (-7/15) = (74/45) * (74/45) := by
    unfold discriminant Acoef Bcoef Ccoef
    norm_num
  have hd0 : 0 ≤ discriminant (2/5) (-7/15) := by
    rw [hdisc]
    norm_num
  have hs : Real.sqrt (discriminant (2/5) (-7/15)) = 74/45 := by
    rw [hdisc]
    exact Real.sqrt_mul_self (by norm_num)
  have hplus : rootPlus (2/5) (-7/15) = 16/21 := by
    unfold rootPlus
    rw [hs, Acoef_eq]
    unfold Bcoef
    norm_num
  have hch : chosenRoot (2/5) (-7/15) = 16/21 := by
    rw [chosenRoot_eq_rootPlus, hplus]
  refine ⟨by norm_num, ?_, hd0, ?_, by norm_num⟩
  · unfold forwardOffset cartesianToScreen
    simp only [Prod.mk.injEq]
    norm_num
  · rw [inverseProject_of_nonneg _ _ _ hd0, hch]
    simp only [Prod.mk.injEq]
    norm_num

/-- Claim C2 (amended): whenever the discriminant of the offset is
negative (the pointer projects outside the visible disk), the inverse
projector returns a target whose y-component is exactly 0; in
particular the input dx = 5, dy = 0 yields exactly (1, 0, 0). -/
theorem claim2_rim_clamp (dx dy : ℝ) (old : ℝ × ℝ × ℝ)
    (h : discriminant dx dy < 0) :
    (inverseProject dx dy old).2.1 = 0 ∧
    inverseProject 5 0 old = (1, 0, 0) := by
  have hne : ¬ (discriminant dx dy ≥ 0) := not_le.mpr h
  have hpos : 0 < dx * dx + dy * dy := by
    rcases eq_or_ne dx 0 with hdx | hdx
    · rcases eq_or_ne dy 0 with hdy | hdy
      · exfalso
        rw [hdx, hdy] at h
        unfold discriminant Acoef Bcoef Ccoef at h
        norm_num at h
      · nlinarith [mul_self_pos.mpr hdy, mul_self_nonneg dx]
    · nlinarith [mul_self_pos.mpr hdx, mul_self_nonneg dy]
  have hlen : 0 < Real.sqrt (dx * dx + dy * dy) := Real.sqrt_pos.mpr hpos
  constructor
  · simp only [inverseProject]
    rw [if_neg hne, if_pos hlen]
    split
    · rfl
    · rfl
  · have hd5 : discriminant 5 0 < 0 := by
      unfold discriminant Acoef Bcoef Ccoef
      norm_num
    have h25 : Real.sqrt ((5 : ℝ) * 5 + 0 * 0) = 5 := by
      rw [show ((5 : ℝ) * 5 + 0 * 0) = 5 * 5 by norm_num]
      exact Real.sqrt_mul_self (by norm_num)
    simp only [inverseProject]
    rw [if_neg (not_le.mpr hd5), h25, if_pos (by norm_num : (5 : ℝ) > 0)]
    have hlen9 : Real.sqrt ((5 : ℝ) / 5 / 0.9 * ((5 : ℝ) / 5 / 0.9)
        + -((0 : ℝ) / 5) * -((0 : ℝ) / 5)) = 10 / 9 := by
      rw [show ((5 : ℝ) / 5 / 0.9 * ((5 : ℝ) / 5 / 0.9)
          + -((0 : ℝ) / 5) * -((0 : ℝ) / 5)) = (10 / 9) * (10 / 9) by norm_num]
      exact Real.sqrt_mul_self (by norm_num)
    rw [hlen9, if_pos (by norm_num : (10 / 9 : ℝ) > 0)]
    simp only [Prod.mk.injEq]
    norm_num

/-- Witness for the amended claim C2 at the offset (5, 0), whose
discriminant is negative. -/
theorem claim2_rim_clamp_witness :
    discriminant 5 0 < 0 ∧ (inverseProject 5 0 (0.707, 0, 0.707)).2.1 = 0 := by
  have hd5 : discriminant 5 0 < 0 := by
    unfold discriminant Acoef Bcoef Ccoef
    norm_num
  exact ⟨hd5, (claim2_rim_clamp 5 0 (0.707, 0, 0.707) hd5).1⟩

/-- Counterexample to claim C2 as stated: the offset (0, 1.01) has
Euclidean magnitude strictly greater than 1, yet it still lies inside
the projected disk (the projection of the unit sphere extends past
magnitude 1 along this direction), so the inverse projector takes the
non-negative-discriminant branch and returns a strictly positive
y-component instead of 0. -/
theorem claim2_counterexample :
    (0 : ℝ) * 0 + 1.01 * 1.01 > 1 * 1 ∧
    0 < (inverseProject 0 1.01 (0.707, 0, 0.707)).2.1 := by
  have hd : 0 ≤ discriminant 0 1.01 := by
    unfold discriminant Acoef Bcoef Ccoef
    norm_num
  refine ⟨by norm_num, ?_⟩
  rw [inverseProject_of_nonneg _ _ _ hd]
  show 0 < chosenRoot 0 1.01
  rw [chosenRoot_eq_rootPlus]
  unfold rootPlus
  apply div_pos
  · have hs : 0 ≤ Real.sqrt (discriminant 0 1.01) := Real.sqrt_nonneg _
    have hB : -(Bcoef 0 1.01) = 0.404 := by
      unfold Bcoef
      norm_num
    rw [hB]
    linarith
  · rw [Acoef_eq]
    norm_num

/-- Claim C8: if the displayed vector and the target vector are both
unit vectors, then after one frame of the sphere animate loop the
interpolated vector has strictly positive length (so the zero-length
guard branch is not taken) and the renormalized displayed vector has
squared norm exactly one. -/
theorem claim8_unit_sphere_invariant (v t : ℝ × ℝ × ℝ)
    (hv : v.1 * v.1 + v.2.1 * v.2.1 + v.2.2 * v.2.2 = 1)
    (ht : t.1 * t.1 + t.2.1 * t.2.1 + t.2.2 * t.2.2 = 1) :
    0 < Real.sqrt ((sphereLerp v t).1 * (sphereLerp v t).1
        + (sphereLerp v t).2.1 * (sphereLerp v t).2.1
        + (sphereLerp v t).2.2 * (sphereLerp v t).2.2) ∧
    (sphereStep v t).1 * (sphereStep v t).1
        + (sphereStep v t).2.1 * (sphereStep v t).2.1
        + (sphereStep v t).2.2 * (sphereStep v t).2.2 = 1 := by
  obtain ⟨vx, vy, vz⟩ := v
  obtain ⟨tx, ty, tz⟩ := t
  dsimp only at hv ht
  simp only [sphereStep, sphereLerp, lerpFactor]
  set S := (vx + (tx - vx) * 0.08) * (vx + (tx - vx) * 0.08)
      + (vy + (ty - vy) * 0.08) * (vy + (ty - vy) * 0.08)
      + (vz + (tz - vz) * 0.08) * (vz + (tz - vz) * 0.08) with hS
  have hSpos : 0 < S := by
    rw [hS]
    nlinarith [mul_self_nonneg (vx + tx), mul_self_nonneg (vy + ty),
      mul_self_nonneg (vz + tz)]
  have hsl : 0 < Real.sqrt S := Real.sqrt_pos.mpr hSpos
  refine ⟨hsl, ?_⟩
  rw [if_pos hsl]
  have hss : Real.sqrt S * Real.sqrt S = S := Real.mul_self_sqrt (le_of_lt hSpos)
  have hne : Real.sqrt S ≠ 0 := ne_of_gt hsl
  field_simp

/-- Witness for claim C8 at the displayed vector (1, 0, 0) and the
target (0, 1, 0). -/
theorem claim8_unit_sphere_invariant_witness :
    (((1, 0, 0) : ℝ × ℝ × ℝ).1 * ((1, 0, 0) : ℝ × ℝ × ℝ).1
        + ((1, 0, 0) : ℝ × ℝ × ℝ).2.1 * ((1, 0, 0) : ℝ × ℝ × ℝ).2.1
        + ((1, 0, 0) : ℝ × ℝ × ℝ).2.2 * ((1, 0, 0) : ℝ × ℝ × ℝ).2.2 = 1) ∧
    (sphereStep (1, 0, 0) (0, 1, 0)).1 * (sphereStep (1, 0, 0) (0, 1, 0)).1
        + (sphereStep (1, 0, 0) (0, 1, 0)).2.1 * (sphereStep (1, 0, 0) (0, 1, 0)).2.1
        + (sphereStep (1, 0, 0) (0, 1, 0)).2.2 * (sphereStep (1, 0, 0) (0, 1, 0)).2.2
      = 1 :=
  ⟨by norm_num,
   (claim8_unit_sphere_invariant (1, 0, 0) (0, 1, 0) (by norm_num) (by norm_num)).2⟩

/-- Claim C4: after every integration step of updateParticle, for any
mouse state, canvas size, noise draws, initial velocities and
accumulated accelerations, the particle speed is at most maxVelocity. -/
theorem claim4_speed_never_exceeds_max (mouse : Option (ℝ × ℝ)) (w h : ℝ)
    (n : ℝ × ℝ) (p : Particle) :
    Real.sqrt ((updateParticle mouse w h n p).vx * (updateParticle mouse w h n p).vx
        + (updateParticle mouse w h n p).vy * (updateParticle mouse w h n p).vy)
      ≤ maxVelocity := by
  have hM : (0 : ℝ) ≤ maxVelocity := by
    unfold maxVelocity
    norm_num
  unfold updateParticle
  set vx1 := (p.vx + (p.ax + (mouseAccel mouse p.x p.y).1) + (n.1 - 0.5) * brownianStrength)
      * damping with hvx1
  set vy1 := (p.vy + (p.ay + (mouseAccel mouse p.x p.y).2) + (n.2 - 0.5) * brownianStrength)
      * damping with hvy1
  have h1 := bounce1D_v_sq_le (p.x + (clampVel vx1 vy1).1) p.radius w (clampVel vx1 vy1).1
  have h2 := bounce1D_v_sq_le (p.y + (clampVel vx1 vy1).2) p.radius h (clampVel vx1 vy1).2
  have h3 := clampVel_sq_le vx1 vy1
  calc Real.sqrt ((bounce1D (p.x + (clampVel vx1 vy1).1) p.radius w (clampVel vx1 vy1).1).2
          * (bounce1D (p.x + (clampVel vx1 vy1).1) p.radius w (clampVel vx1 vy1).1).2
        + (bounce1D (p.y + (clampVel vx1 vy1).2) p.radius h (clampVel vx1 vy1).2).2
          * (bounce1D (p.y + (clampVel vx1 vy1).2) p.radius h (clampVel vx1 vy1).2).2)
      ≤ Real.sqrt (maxVelocity * maxVelocity) := Real.sqrt_le_sqrt (by linarith)
    _ = maxVelocity := Real.sqrt_mul_self hM
